import Mathlib

/-!
Verification of the Condor GIP provider module
(`gip/lib/python/condor_common.py`).

The module is a streaming ClassAd parser (`ClassAdParser`) plus three
aggregators (`getJobsInfo`, `getGroupInfo`, `parseNodes`).  We give a
shallow embedding: Python dicts become association lists with
replace-or-append insertion; Python string helpers (`split`, `strip`,
`startswith`, `lower`, `int(...)`) become structurally recursive Lean
functions on character lists; SAX events for a well-formed
record/attribute stream become a list of records, each a list of
attribute elements carrying the optional XML attribute `n` and the list
of character-data chunks delivered for that element.
-/

namespace Condor

/-- Python dict assignment `d[k] = v`: replace the binding for `k` in
place if present, otherwise append it. -/
def dinsert {α : Type} (k : String) (v : α) : List (String × α) → List (String × α)
  | [] => [(k, v)]
  | (k0, v0) :: t => if k0 = k then (k, v) :: t else (k0, v0) :: dinsert k v t

/-- Python dict lookup `d.get(k)`: the value bound to `k`, if any. -/
def dget {α : Type} (k : String) : List (String × α) → Option α
  | [] => none
  | (k0, v0) :: t => if k0 = k then some v0 else dget k t

/-- Python `d.keys()` for our association-list dicts. -/
def dkeys {α : Type} (l : List (String × α)) : List String :=
  l.map Prod.fst

/-- Helper for `pySplit`: accumulate the current piece (reversed). -/
def pySplitAux (sep : Char) : List Char → List Char → List String
  | [], cur => [String.mk cur.reverse]
  | c :: rest, cur =>
    if c = sep then String.mk cur.reverse :: pySplitAux sep rest []
    else pySplitAux sep rest (c :: cur)

/-- Python `s.split(sep)` for a one-character separator: always returns a
non-empty list; `"".split(sep) == [""]`. -/
def pySplit (sep : Char) (s : String) : List String :=
  pySplitAux sep s.data []

/-- Python `s.strip()`: drop leading and trailing whitespace. -/
def pyStrip (s : String) : String :=
  String.mk (((s.data.dropWhile Char.isWhitespace).reverse.dropWhile Char.isWhitespace).reverse)

/-- Python `s.startswith(t)`. -/
def pyStartsWith (s t : String) : Bool :=
  t.data.isPrefixOf s.data

/-- Python `s.lower()`. -/
def pyLower (s : String) : String :=
  String.mk (s.data.map Char.toLower)

/-- Numeric value of a decimal digit string. -/
def digitsVal (cs : List Char) : Nat :=
  cs.foldl (fun acc c => acc * 10 + (c.toNat - 48)) 0

/-- True when `cs` is a non-empty run of decimal digits. -/
def allDigits (cs : List Char) : Bool :=
  !cs.isEmpty && cs.all Char.isDigit

/-- Python `int(s)`: optional surrounding whitespace, optional sign, then
decimal digits; `none` models the `ValueError` raised otherwise. -/
def pyToInt (s : String) : Option Int :=
  match (pyStrip s).data with
  | [] => none
  | c :: rest =>
    if c = '-' then
      if allDigits rest then some (-(Int.ofNat (digitsVal rest))) else none
    else if c = '+' then
      if allDigits rest then some (Int.ofNat (digitsVal rest)) else none
    else if allDigits (c :: rest) then some (Int.ofNat (digitsVal (c :: rest)))
    else none

/-- Python `l[0]` on the never-empty result of a `split`: its first
element. -/
def pyFirst (l : List String) : String :=
  l.headD ""

/-- A ClassAd record as built by the parser: attribute name to raw text. -/
abbrev Rec := List (String × String)

/-- The parser's result collection: index value to record. -/
abbrev Coll := List (String × Rec)

/-- The configuration of `ClassAdParser` after `__init__`: the (possibly
extended) attribute allow-list and the index attribute name. -/
structure ClassAdParser where
  attrlist : List String
  idxAttr : String

/-- `ClassAdParser.__init__(idx, attrlist)`: copy the allow-list and, when
it is non-empty and lacks `idx`, append `idx` to it. -/
def ClassAdParser.init (idx : String) (attrlist : List String) : ClassAdParser :=
  { attrlist := if attrlist ≠ [] ∧ idx ∉ attrlist then attrlist ++ [idx] else attrlist,
    idxAttr := idx }

/-- One `<a>` element of a well-formed stream: the value of its XML
attribute `n` (absent allowed), and the character-data chunks delivered
for its text content, in document order. -/
structure XAttr where
  nameAttr : Option String
  chunks : List String

/-- `startElement('a')`: the attribute name is `attrs.get('n', 'Unknown')`. -/
def attrNameOf (a : XAttr) : String :=
  a.nameAttr.getD "Unknown"

/-- The buffered text at `endElement('a')`: `attrInfo` starts as `''` at
`startElement('a')` and each `characters` event appends its chunk. -/
def attrText (chunks : List String) : String :=
  chunks.foldl (fun acc c => acc ++ c) ""

/-- `endElement('a')`: commit the buffered text under the attribute name
when that name is in the allow-list or the allow-list is empty. -/
def commitAttr (p : ClassAdParser) (cur : Rec) (a : XAttr) : Rec :=
  if attrNameOf a ∈ p.attrlist ∨ p.attrlist = [] then
    dinsert (attrNameOf a) (attrText a.chunks) cur
  else cur

/-- The in-progress record at `endElement('c')`: `curCaInfo` starts empty
at `startElement('c')` and each contained `<a>` element is committed in
order. -/
def processRecord (p : ClassAdParser) (r : List XAttr) : Rec :=
  r.foldl (commitAttr p) []

/-- `endElement('c')`: look up the index attribute in the finished record;
when present and non-empty (Python truthiness of `curCaInfo.get(idxAttr)`)
store the record under that value, else drop it. -/
def endRecord (p : ClassAdParser) (acc : Coll) (r : List XAttr) : Coll :=
  match dget p.idxAttr (processRecord p r) with
  | some v => if v ≠ "" then dinsert v (processRecord p r) acc else acc
  | none => acc

/-- `getClassAds` after parsing a well-formed record/attribute stream:
fold every record into the collection, starting from the empty `caInfo`
of `startDocument`. -/
def getClassAds (p : ClassAdParser) (s : List (List XAttr)) : Coll :=
  s.foldl (endRecord p) []

/-- Number of records of the stream whose index attribute is present and
non-empty after attribute filtering (the spec's side of the key-count
property). -/
def countValidRecords (p : ClassAdParser) (s : List (List XAttr)) : Nat :=
  (s.filter (fun r => ((dget p.idxAttr (processRecord p r)).getD "") != "")).length

/-- The index values of the records whose index attribute is present and
non-empty, in stream order. -/
def validIdxValues (p : ClassAdParser) (s : List (List XAttr)) : List String :=
  s.filterMap (fun r =>
    match dget p.idxAttr (processRecord p r) with
    | some v => if v = "" then none else some v
    | none => none)

/-- A per-VO job summary, the Python dict
`{"running": 0, "idle": 0, "held": 0, "max_running": 0}`. -/
abbrev JInfo := List (String × Int)

/-- The job-summary dict a VO starts from in `getJobsInfo`. -/
def initJobInfo : JInfo :=
  [("running", 0), ("idle", 0), ("held", 0), ("max_running", 0)]

/-- The nested helper `addIntInfo` of `getJobsInfo`.  It returns
unchanged when either key is missing; otherwise it tries
`int(classad_dict[classad_key])` inside a `try/except: pass` — but the
increment `my_info_dict[my_key] += new_info` sits outside the `try`, so a
failed parse leaves `new_info` unbound and the increment raises
`UnboundLocalError` (modelled as `none`). -/
def addIntInfo (my_info : JInfo) (classad : Rec) (my_key classad_key : String) : Option JInfo :=
  match dget my_key my_info, dget classad_key classad with
  | none, _ => some my_info
  | _, none => some my_info
  | some cur, some v =>
    match pyToInt v with
    | some n => some (dinsert my_key (cur + n) my_info)
    | none => none

/-- One iteration of the `getJobsInfo` loop over a `(user, info)` item:
derive the name before the first `@`, resolve it through the VoMapper
(`none` models the caught exception, skipping the record), then apply the
four `addIntInfo` calls and store the summary under the lower-cased VO. -/
def jobStep (vm : String → Option String) (item : String × Rec)
    (acc : List (String × JInfo)) : Option (List (String × JInfo)) :=
  match vm (pyFirst (pySplit '@' item.1)) with
  | none => some acc
  | some v =>
    match addIntInfo ((dget (pyLower v) acc).getD initJobInfo) item.2 "running" "RunningJobs" with
    | none => none
    | some m1 =>
      match addIntInfo m1 item.2 "idle" "IdleJobs" with
      | none => none
      | some m2 =>
        match addIntInfo m2 item.2 "held" "HeldJobs" with
        | none => none
        | some m3 =>
          match addIntInfo m3 item.2 "max_running" "MaxJobsRunning" with
          | none => none
          | some m4 => some (dinsert (pyLower v) m4 acc)

/-- The `getJobsInfo` loop over the parsed submitter records; `none`
models an uncaught exception escaping the call. -/
def getJobsAux (vm : String → Option String) :
    List (String × Rec) → List (String × JInfo) → Option (List (String × JInfo))
  | [], acc => some acc
  | item :: rest, acc =>
    match jobStep vm item acc with
    | none => none
    | some acc2 => getJobsAux vm rest acc2

/-- `getJobsInfo`, shallowly embedded over the record collection the
parser produced from `condor_status -submitter -xml` and the VoMapper. -/
def getJobsInfo (vm : String → Option String) (coll : List (String × Rec)) :
    Option (List (String × JInfo)) :=
  getJobsAux vm coll []

/-- A per-VO group summary, the Python dict `{"quota": q, "prio": p}`. -/
abbrev GInfo := Int × Int

/-- The `getGroupInfo` loop.  For each group: strip it, read and strip the
quota and priority command outputs (each recorded in the second component
as one per-group quota plus priority invocation), then resolve the group
through the VoMapper — an unresolvable group raises `KeyError`
(`Except.error`), aborting the call; integer-parse failures on quota or
priority are each swallowed by a `try/except: pass`. -/
def groupUpdate (quota prio : String) (cur0 : GInfo) : GInfo :=
  let cur1 := match pyToInt quota with
    | some n => (cur0.1 + n, cur0.2)
    | none => cur0
  match pyToInt prio with
  | some n => (cur1.1, cur1.2 + n)
  | none => cur1

def getGroupAux (vm : String → Option String) (quotaOut prioOut : String → String) :
    List String → List (String × GInfo) →
    Except String (List (String × GInfo)) × List String
  | [], acc => (Except.ok acc, [])
  | g :: gs, acc =>
    let group := pyStrip g
    match vm group with
    | none => (Except.error group, [group])
    | some vo =>
      let r := getGroupAux vm quotaOut prioOut gs
        (dinsert vo (groupUpdate (pyStrip (quotaOut group)) (pyStrip (prioOut group))
          ((dget vo acc).getD (0, 0))) acc)
      (r.1, group :: r.2)

/-- `getGroupInfo`, shallowly embedded.  `groupOut` is the
`condor_config_val GROUP_NAMES` output, `quotaOut`/`prioOut` give the
per-group command outputs, `vm` the VoMapper.  The first component is the
summary (or the propagated resolver error); the second lists the groups
for which the per-group quota and priority commands were invoked. -/
def getGroupInfo (vm : String → Option String) (quotaOut prioOut : String → String)
    (groupOut : String) : Except String (List (String × GInfo)) × List String :=
  let output := pySplit ',' groupOut
  if ¬ (pyStartsWith (pyStrip (output.headD "")) "Not defined") = true ∧
      (pyStrip (output.headD "")).length > 0 then
    getGroupAux vm quotaOut prioOut output []
  else (Except.ok [], [])

/-- One iteration of the `parseNodes` loop: every record bumps the total;
a missing `State` just continues; `Claimed`/`Unclaimed` bump their
counters; `Owner` lowers the total again when `subtract_owner` is set. -/
def nodeStep (subtract : Bool) (t : Int × Int × Int) (item : String × Rec) :
    Int × Int × Int :=
  match dget "State" item.2 with
  | none => (t.1 + 1, t.2.1, t.2.2)
  | some s =>
    if s = "Claimed" then (t.1 + 1, t.2.1 + 1, t.2.2)
    else if s = "Unclaimed" then (t.1 + 1, t.2.1, t.2.2 + 1)
    else if subtract = true ∧ s = "Owner" then (t.1 + 1 - 1, t.2.1, t.2.2)
    else (t.1 + 1, t.2.1, t.2.2)

/-- `parseNodes`, shallowly embedded over the record collection the parser
produced from `condor_status -xml` and the `subtract_owner` flag:
the `(total, claimed, unclaimed)` triple. -/
def parseNodes (subtract : Bool) (coll : List (String × Rec)) : Int × Int × Int :=
  coll.foldl (nodeStep subtract) (0, 0, 0)

/-- The Node Aggregator example collection of the spec: one Claimed, one
Unclaimed, one Owner, and one record without a `State` attribute. -/
def exNodes : Coll :=
  [("m1", [("State", "Claimed")]), ("m2", [("State", "Unclaimed")]),
   ("m3", [("State", "Owner")]), ("m4", [])]

/-- A VoMapper resolving exactly the submitter name `alice` to `vo1`. -/
def vmAlice : String → Option String :=
  fun s => if s = "alice" then some "vo1" else none

/-- A VoMapper resolving exactly the submitter name `bob` to `VO2`. -/
def vmBob : String → Option String :=
  fun s => if s = "bob" then some "VO2" else none

/-- A VoMapper that resolves nothing. -/
def vmNone : String → Option String :=
  fun _ => none

/-- A parser indexing on `Name` with an empty allow-list. -/
def exParser : ClassAdParser :=
  ClassAdParser.init "Name" []

/-- A parser indexing on `Name` with the allow-list `["State"]`, which
does not mention the index attribute. -/
def exFilterParser : ClassAdParser :=
  ClassAdParser.init "Name" ["State"]

/-- A stream of two records both carrying the index value `x`. -/
def exDupStream : List (List XAttr) :=
  [[⟨some "Name", ["x"]⟩], [⟨some "Name", ["x"]⟩]]

/-- A one-record stream: `Name` is `m1` and `State` is `Claimed`. -/
def exStream1 : List (List XAttr) :=
  [[⟨some "Name", ["m1"]⟩, ⟨some "State", ["Claimed"]⟩]]

/-- A record with no `Name` attribute at all. -/
def exBadRec : List XAttr :=
  [⟨some "State", ["Idle"]⟩]

/-- An attribute element named `X` whose text arrives as two chunks. -/
def exAttr : XAttr :=
  ⟨some "X", ["ab", "cd"]⟩

/-- A quota-command oracle that always prints `1`. -/
def quotaOne : String → String :=
  fun _ => "1"

/-- A priority-command oracle that always prints `2`. -/
def prioTwo : String → String :=
  fun _ => "2"

theorem dget_dinsert_self {α : Type} (k : String) (v : α) (l : List (String × α)) :
    dget k (dinsert k v l) = some v := by
  induction l with
  | nil => simp [dinsert, dget]
  | cons hd t ih =>
    obtain ⟨k0, v0⟩ := hd
    by_cases hk : k0 = k
    · simp [dinsert, hk, dget]
    · simp [dinsert, hk, dget, ih]

theorem dget_dinsert_ne {α : Type} (k' k : String) (v : α) (l : List (String × α))
    (h : k' ≠ k) : dget k' (dinsert k v l) = dget k' l := by
  induction l with
  | nil => simp [dinsert, dget, Ne.symm h]
  | cons hd t ih =>
    obtain ⟨k0, v0⟩ := hd
    by_cases hk : k0 = k
    · subst hk
      simp [dinsert, dget, Ne.symm h]
    · simp [dinsert, hk, dget, ih]

theorem dkeys_dinsert {α : Type} (k : String) (v : α) (l : List (String × α)) :
    dkeys (dinsert k v l) = if k ∈ dkeys l then dkeys l else dkeys l ++ [k] := by
  induction l with
  | nil => simp [dinsert, dkeys]
  | cons hd t ih =>
    obtain ⟨k0, v0⟩ := hd
    by_cases hk : k0 = k
    · subst hk
      simp [dinsert, dkeys]
    · have hmem : (k ∈ dkeys ((k0, v0) :: t)) ↔ k ∈ dkeys t := by
        simp [dkeys, Ne.symm hk]
      rw [show dinsert k v ((k0, v0) :: t) = (k0, v0) :: dinsert k v t by
        simp [dinsert, hk]]
      rw [show dkeys ((k0, v0) :: dinsert k v t) = k0 :: dkeys (dinsert k v t) from rfl]
      rw [ih]
      by_cases hm : k ∈ dkeys t
      · rw [if_pos hm, if_pos (hmem.mpr hm)]
        rfl
      · rw [if_neg hm, if_neg (fun hx => hm (hmem.mp hx))]
        rfl

theorem dkeys_dinsert_toFinset {α : Type} (k : String) (v : α) (l : List (String × α)) :
    (dkeys (dinsert k v l)).toFinset = insert k (dkeys l).toFinset := by
  rw [dkeys_dinsert]
  by_cases hm : k ∈ dkeys l
  · rw [if_pos hm, Finset.insert_eq_self.mpr (List.mem_toFinset.mpr hm)]
  · rw [if_neg hm]
    ext a
    simp [or_comm]

theorem dkeys_dinsert_nodup {α : Type} (k : String) (v : α) (l : List (String × α))
    (h : (dkeys l).Nodup) : (dkeys (dinsert k v l)).Nodup := by
  rw [dkeys_dinsert]
  by_cases hm : k ∈ dkeys l
  · rwa [if_pos hm]
  · rw [if_neg hm]
    simp [List.nodup_append, h, hm]

theorem getClassAds_inv (p : ClassAdParser) :
    ∀ (s : List (List XAttr)) (acc : Coll),
      (∀ k rec, dget k acc = some rec → dget p.idxAttr rec = some k ∧ k ≠ "") →
      ∀ k rec, dget k (s.foldl (endRecord p) acc) = some rec →
        dget p.idxAttr rec = some k ∧ k ≠ "" := by
  intro s
  induction s with
  | nil => intro acc hacc; simpa using hacc
  | cons r s ih =>
    intro acc hacc
    simp only [List.foldl_cons]
    apply ih
    intro k rec hk
    cases hd : dget p.idxAttr (processRecord p r) with
    | none =>
      simp only [endRecord, hd] at hk
      exact hacc k rec hk
    | some v =>
      by_cases hv : v = ""
      · subst hv
        simp [endRecord, hd] at hk
        exact hacc k rec hk
      · simp only [endRecord, hd] at hk
        rw [if_pos hv] at hk
        by_cases hkv : k = v
        · subst hkv
          rw [dget_dinsert_self] at hk
          obtain rfl := Option.some_injective _ hk
          exact ⟨hd, hv⟩
        · rw [dget_dinsert_ne k v _ _ hkv] at hk
          exact hacc k rec hk

/-- C10: after any parse, every key of the collection returned by
`getClassAds` is exactly the value the stored record itself gives to the
index attribute. -/
theorem getClassAds_key_matches_idx (p : ClassAdParser) (s : List (List XAttr))
    (k : String) (rec : Rec)
    (h : dget k (getClassAds p s) = some rec) : dget p.idxAttr rec = some k :=
  (getClassAds_inv p s [] (by intro k rec hk; cases hk) k rec h).1

/-- C10 witness: the invariant applied to a concrete one-record stream. -/
theorem getClassAds_key_matches_idx_witness :
    (dget "m1" (getClassAds exFilterParser exStream1) =
      some [("Name", "m1"), ("State", "Claimed")]) ∧
    dget exFilterParser.idxAttr [("Name", "m1"), ("State", "Claimed")] = some "m1" :=
  ⟨by decide, getClassAds_key_matches_idx exFilterParser exStream1 "m1"
    [("Name", "m1"), ("State", "Claimed")] (by decide)⟩

/-- C7: a parser constructed with a non-empty allow-list that omits the
index attribute appends the index attribute to the allow-list, and every
record emitted into the result collection retains the index attribute in
its attribute mapping. -/
theorem getClassAds_idx_retained (idx : String) (al : List String)
    (s : List (List XAttr)) (k : String) (rec : Rec)
    (h1 : al ≠ []) (h2 : idx ∉ al)
    (h3 : dget k (getClassAds (ClassAdParser.init idx al) s) = some rec) :
    (ClassAdParser.init idx al).attrlist = al ++ [idx] ∧
    ∃ v, dget idx rec = some v := by
  constructor
  · unfold ClassAdParser.init
    rw [if_pos ⟨h1, h2⟩]
  · exact ⟨k, (getClassAds_inv (ClassAdParser.init idx al) s []
      (by intro k rec hk; cases hk) k rec h3).1⟩

/-- C7 witness: the filtered parser on a concrete stream still keeps
`Name` inside the emitted record. -/
theorem getClassAds_idx_retained_witness :
    ((["State"] : List String) ≠ []) ∧ ("Name" ∉ (["State"] : List String)) ∧
    (dget "m1" (getClassAds (ClassAdParser.init "Name" ["State"]) exStream1) =
      some [("Name", "m1"), ("State", "Claimed")]) ∧
    ((ClassAdParser.init "Name" ["State"]).attrlist = ["State"] ++ ["Name"] ∧
      ∃ v, dget "Name" [("Name", "m1"), ("State", "Claimed")] = some v) :=
  ⟨by decide, by decide, by decide,
    getClassAds_idx_retained "Name" ["State"] exStream1 "m1"
      [("Name", "m1"), ("State", "Claimed")] (by decide) (by decide) (by decide)⟩

theorem validIdxValues_cons_none (p : ClassAdParser) (r : List XAttr)
    (s : List (List XAttr)) (h : dget p.idxAttr (processRecord p r) = none) :
    validIdxValues p (r :: s) = validIdxValues p s := by
  unfold validIdxValues
  rw [List.filterMap_cons, h]

theorem validIdxValues_cons_empty (p : ClassAdParser) (r : List XAttr)
    (s : List (List XAttr)) (h : dget p.idxAttr (processRecord p r) = some "") :
    validIdxValues p (r :: s) = validIdxValues p s := by
  unfold validIdxValues
  rw [List.filterMap_cons, h]
  simp

theorem validIdxValues_cons_some (p : ClassAdParser) (r : List XAttr)
    (s : List (List XAttr)) (v : String)
    (h : dget p.idxAttr (processRecord p r) = some v) (hv : v ≠ "") :
    validIdxValues p (r :: s) = v :: validIdxValues p s := by
  unfold validIdxValues
  rw [List.filterMap_cons, h]
  simp [hv]

theorem getClassAds_fold_keys (p : ClassAdParser) :
    ∀ (s : List (List XAttr)) (acc : Coll), (dkeys acc).Nodup →
      (dkeys (s.foldl (endRecord p) acc)).Nodup ∧
      (dkeys (s.foldl (endRecord p) acc)).toFinset =
        (dkeys acc).toFinset ∪ (validIdxValues p s).toFinset := by
  intro s
  induction s with
  | nil =>
    intro acc hacc
    refine ⟨hacc, ?_⟩
    simp [validIdxValues]
  | cons r s ih =>
    intro acc hacc
    simp only [List.foldl_cons]
    cases hd : dget p.idxAttr (processRecord p r) with
    | none =>
      rw [show endRecord p acc r = acc by simp [endRecord, hd]]
      rw [validIdxValues_cons_none p r s hd]
      exact ih acc hacc
    | some v =>
      by_cases hv : v = ""
      · subst hv
        rw [show endRecord p acc r = acc by simp [endRecord, hd]]
        rw [validIdxValues_cons_empty p r s hd]
        exact ih acc hacc
      · rw [show endRecord p acc r = dinsert v (processRecord p r) acc by
          simp only [endRecord, hd]; rw [if_pos hv]]
        rw [validIdxValues_cons_some p r s v hd hv]
        obtain ⟨hn, hf⟩ := ih (dinsert v (processRecord p r) acc)
          (dkeys_dinsert_nodup v (processRecord p r) acc hacc)
        refine ⟨hn, ?_⟩
        rw [hf, dkeys_dinsert_toFinset, List.toFinset_cons,
          Finset.insert_union, Finset.union_insert]

/-- C2 counterexample: a well-formed stream of two records that both carry
the non-empty index value `x` produces one key, while two records have a
present, non-empty index attribute. -/
theorem getClassAds_dup_key_count :
    ¬ ((getClassAds exParser exDupStream).length =
        countValidRecords exParser exDupStream) := by
  decide

/-- C2 amended: the number of keys of the collection equals the number of
distinct index values among the records whose index attribute is present
and non-empty, and a record whose index attribute is absent or empty
leaves the result unchanged. -/
theorem getClassAds_key_count (p : ClassAdParser) (s : List (List XAttr)) :
    (getClassAds p s).length = (validIdxValues p s).dedup.length ∧
    ∀ r, (dget p.idxAttr (processRecord p r)).getD "" = "" →
      getClassAds p (s ++ [r]) = getClassAds p s := by
  constructor
  · obtain ⟨hn, hf⟩ := getClassAds_fold_keys p s [] (by simp [dkeys])
    unfold getClassAds
    rw [show (List.foldl (endRecord p) [] s).length =
        (dkeys (List.foldl (endRecord p) [] s)).length by simp [dkeys]]
    rw [← List.toFinset_card_of_nodup hn, hf, ← List.card_toFinset]
    simp [dkeys]
  · intro r hr
    unfold getClassAds
    rw [List.foldl_append]
    simp only [List.foldl_cons, List.foldl_nil]
    cases hd : dget p.idxAttr (processRecord p r) with
    | none => simp [endRecord, hd]
    | some v =>
      rw [hd] at hr
      simp only [Option.getD_some] at hr
      simp [endRecord, hd, hr]

/-- C2 amended witness: the amended count on a concrete stream, and a
record without the index attribute appended to it changes nothing. -/
theorem getClassAds_key_count_witness :
    ((getClassAds exParser exStream1).length =
      (validIdxValues exParser exStream1).dedup.length) ∧
    ((dget exParser.idxAttr (processRecord exParser exBadRec)).getD "" = "") ∧
    getClassAds exParser (exStream1 ++ [exBadRec]) = getClassAds exParser exStream1 :=
  ⟨(getClassAds_key_count exParser exStream1).1, by decide,
    (getClassAds_key_count exParser exStream1).2 exBadRec (by decide)⟩

/-- C3: the two spec examples for the Node Aggregator, and, for every
record appended to the input, the general per-record effect: the total
always gains one, `Claimed` gains one claimed, `Unclaimed` gains one
unclaimed, and `Owner` takes the gained one back off the total exactly
when `subtract_owner` is enabled. -/
theorem parseNodes_counts :
    parseNodes true exNodes = (3, 1, 1) ∧
    parseNodes false exNodes = (4, 1, 1) ∧
    ∀ (b : Bool) (coll : List (String × Rec)) (k : String) (info : Rec),
      parseNodes b (coll ++ [(k, info)]) =
        ((parseNodes b coll).1 + 1 -
            (if b = true ∧ dget "State" info = some "Owner" then 1 else 0),
          (parseNodes b coll).2.1 +
            (if dget "State" info = some "Claimed" then 1 else 0),
          (parseNodes b coll).2.2 +
            (if dget "State" info = some "Unclaimed" then 1 else 0)) := by
  refine ⟨by decide, by decide, ?_⟩
  intro b coll k info
  unfold parseNodes
  rw [List.foldl_append]
  simp only [List.foldl_cons, List.foldl_nil]
  unfold nodeStep
  cases hd : dget "State" info with
  | none => simp [hd]
  | some s =>
    simp only [hd, Option.some_inj]
    by_cases h1 : s = "Claimed"
    · subst h1
      simp
    · by_cases h2 : s = "Unclaimed"
      · subst h2
        simp
      · by_cases h3 : s = "Owner"
        · subst h3
          cases b <;> simp
        · simp [h1, h2, h3]

theorem nodeStep_le (b : Bool) (t : Int × Int × Int) (x : String × Rec)
    (h : t.2.1 + t.2.2 ≤ t.1) :
    (nodeStep b t x).2.1 + (nodeStep b t x).2.2 ≤ (nodeStep b t x).1 := by
  unfold nodeStep
  cases dget "State" x.2 with
  | none => simpa using by omega
  | some s =>
    by_cases h1 : s = "Claimed"
    · simp [h1]; omega
    · by_cases h2 : s = "Unclaimed"
      · simp [h1, h2]; omega
      · by_cases h3 : b = true ∧ s = "Owner"
        · simp [h1, h2, h3]; omega
        · simp [h1, h2, h3]; omega

theorem nodeFold_le (b : Bool) :
    ∀ (coll : List (String × Rec)) (t : Int × Int × Int), t.2.1 + t.2.2 ≤ t.1 →
      (coll.foldl (nodeStep b) t).2.1 + (coll.foldl (nodeStep b) t).2.2 ≤
        (coll.foldl (nodeStep b) t).1 := by
  intro coll
  induction coll with
  | nil => intro t ht; simpa using ht
  | cons x rest ih =>
    intro t ht
    simp only [List.foldl_cons]
    exact ih (nodeStep b t x) (nodeStep_le b t x ht)

/-- C9: for every input collection and both values of `subtract_owner`,
the triple returned by `parseNodes` satisfies claimed + unclaimed ≤
total. -/
theorem parseNodes_claimed_unclaimed_le_total (b : Bool) (coll : List (String × Rec)) :
    (parseNodes b coll).2.1 + (parseNodes b coll).2.2 ≤ (parseNodes b coll).1 :=
  nodeFold_le b coll (0, 0, 0) (by simp)

theorem strAppend_assoc (a b c : String) : (a ++ b) ++ c = a ++ (b ++ c) := by
  obtain ⟨la⟩ := a
  obtain ⟨lb⟩ := b
  obtain ⟨lc⟩ := c
  show String.mk (la ++ lb ++ lc) = String.mk (la ++ (lb ++ lc))
  rw [List.append_assoc]

theorem attrText_concat (cs : List String) :
    ∀ (start : String),
      cs.foldl (fun a c => a ++ c) start = start ++ cs.foldr (fun x y => x ++ y) "" := by
  induction cs with
  | nil =>
    intro start
    simp only [List.foldl_nil, List.foldr_nil]
    rw [String.append_empty]
  | cons c cs ih =>
    intro start
    simp only [List.foldl_cons, List.foldr_cons]
    rw [ih (start ++ c), strAppend_assoc]

theorem attrText_eq_foldr (cs : List String) :
    attrText cs = cs.foldr (fun x y => x ++ y) "" := by
  unfold attrText
  rw [attrText_concat, String.empty_append]

/-- C8: an attribute element whose text content arrives as several
character-data chunks is committed as their in-order concatenation: the
value the finished record gives to that attribute name is the right fold
of the chunk list under append. -/
theorem attr_chunks_concat (p : ClassAdParser) (elems : List XAttr) (a : XAttr)
    (h : attrNameOf a ∈ p.attrlist ∨ p.attrlist = []) :
    dget (attrNameOf a) (processRecord p (elems ++ [a])) =
      some (a.chunks.foldr (fun x y => x ++ y) "") := by
  unfold processRecord
  rw [List.foldl_append]
  simp only [List.foldl_cons, List.foldl_nil]
  unfold commitAttr
  rw [if_pos h, dget_dinsert_self, attrText_eq_foldr]

/-- C8 witness: an attribute delivered as the chunks `ab` and `cd` is
committed as `abcd`. -/
theorem attr_chunks_concat_witness :
    (attrNameOf exAttr ∈ exParser.attrlist ∨ exParser.attrlist = []) ∧
    dget (attrNameOf exAttr) (processRecord exParser ([] ++ [exAttr])) =
      some (exAttr.chunks.foldr (fun x y => x ++ y) "") :=
  ⟨Or.inr (by decide), attr_chunks_concat exParser [] exAttr (Or.inr (by decide))⟩

/-- C4: when the first comma-piece of the group-list output, once
stripped, starts with the `Not defined` sentinel or is empty,
`getGroupInfo` returns the empty summary and invokes no per-group quota
or priority command. -/
theorem getGroupInfo_notDefined_empty (vm : String → Option String)
    (quotaOut prioOut : String → String) (groupOut : String)
    (h : pyStartsWith (pyStrip ((pySplit ',' groupOut).headD "")) "Not defined" = true ∨
      pyStrip ((pySplit ',' groupOut).headD "") = "") :
    getGroupInfo vm quotaOut prioOut groupOut = (Except.ok [], []) := by
  unfold getGroupInfo
  rw [if_neg]
  rintro ⟨h1, h2⟩
  rcases h with h | h
  · exact h1 h
  · rw [h] at h2
    simp at h2

/-- C4 witness: the literal output `Not defined` yields the empty summary
and an empty invocation list. -/
theorem getGroupInfo_notDefined_empty_witness :
    (pyStartsWith (pyStrip ((pySplit ',' "Not defined").headD "")) "Not defined" = true) ∧
    getGroupInfo vmNone quotaOne prioTwo "Not defined" = (Except.ok [], []) :=
  ⟨by decide, getGroupInfo_notDefined_empty vmNone quotaOne prioTwo "Not defined"
    (Or.inl (by decide))⟩

theorem getGroupAux_ok_resolves (vm : String → Option String)
    (quotaOut prioOut : String → String) :
    ∀ (gs : List String) (acc : List (String × GInfo)) (res : List (String × GInfo)),
      (getGroupAux vm quotaOut prioOut gs acc).1 = Except.ok res →
      ∀ g ∈ gs, vm (pyStrip g) ≠ none := by
  intro gs
  induction gs with
  | nil => intro acc res _ g hg; cases hg
  | cons g0 gs ih =>
    intro acc res hok g hg
    cases hv : vm (pyStrip g0) with
    | none =>
      rw [show (getGroupAux vm quotaOut prioOut (g0 :: gs) acc).1 =
          Except.error (pyStrip g0) by simp [getGroupAux, hv]] at hok
      cases hok
    | some vo =>
      rcases List.mem_cons.mp hg with rfl | hmem
      · simp [hv]
      · have hstep : (getGroupAux vm quotaOut prioOut (g0 :: gs) acc).1 =
            (getGroupAux vm quotaOut prioOut gs
              (dinsert vo (groupUpdate (pyStrip (quotaOut (pyStrip g0)))
                (pyStrip (prioOut (pyStrip g0))) ((dget vo acc).getD (0, 0))) acc)).1 := by
          simp [getGroupAux, hv]
        rw [hstep] at hok
        exact ih _ res hok g hmem

/-- C5: when the group-list guard passes and some group of the split list
cannot be resolved by the VoMapper, `getGroupInfo` propagates an error:
the first component of the call is `Except.error`, never a summary. -/
theorem getGroupInfo_unresolved_error (vm : String → Option String)
    (quotaOut prioOut : String → String) (groupOut g : String)
    (hstart : pyStartsWith (pyStrip ((pySplit ',' groupOut).headD "")) "Not defined" = false)
    (hlen : (pyStrip ((pySplit ',' groupOut).headD "")).length > 0)
    (hmem : g ∈ pySplit ',' groupOut)
    (hun : vm (pyStrip g) = none) :
    ∃ e, (getGroupInfo vm quotaOut prioOut groupOut).1 = Except.error e := by
  unfold getGroupInfo
  rw [if_pos ⟨by rw [Bool.not_eq_true]; exact hstart, hlen⟩]
  cases hres : (getGroupAux vm quotaOut prioOut (pySplit ',' groupOut) []).1 with
  | error e => exact ⟨e, rfl⟩
  | ok res =>
    exact absurd hun
      (getGroupAux_ok_resolves vm quotaOut prioOut (pySplit ',' groupOut) [] res hres g hmem)

/-- C5 witness: a single group `grp1` that the VoMapper cannot resolve
makes the call fail. -/
theorem getGroupInfo_unresolved_error_witness :
    (pyStartsWith (pyStrip ((pySplit ',' "grp1").headD "")) "Not defined" = false) ∧
    ((pyStrip ((pySplit ',' "grp1").headD "")).length > 0) ∧
    ("grp1" ∈ pySplit ',' "grp1") ∧
    (vmNone (pyStrip "grp1") = none) ∧
    ∃ e, (getGroupInfo vmNone quotaOne prioTwo "grp1").1 = Except.error e :=
  ⟨by decide, by decide, by decide, rfl,
    getGroupInfo_unresolved_error vmNone quotaOne prioTwo "grp1" "grp1"
      (by decide) (by decide) (by decide) rfl⟩

theorem jobStep_skip (vm : String → Option String) (user : String) (info : Rec)
    (acc : List (String × JInfo))
    (h : vm (pyFirst (pySplit '@' user)) = none) :
    jobStep vm (user, info) acc = some acc := by
  simp [jobStep, h]

theorem getJobsAux_skip (vm : String → Option String) (user : String) (info : Rec)
    (post : List (String × Rec))
    (h : vm (pyFirst (pySplit '@' user)) = none) :
    ∀ (pre : List (String × Rec)) (acc : List (String × JInfo)),
      getJobsAux vm (pre ++ (user, info) :: post) acc = getJobsAux vm (pre ++ post) acc := by
  intro pre
  induction pre with
  | nil =>
    intro acc
    rw [List.nil_append, List.nil_append]
    rw [show getJobsAux vm ((user, info) :: post) acc = getJobsAux vm post acc by
      simp [getJobsAux, jobStep_skip vm user info acc h]]
  | cons hd tl ih =>
    intro acc
    rw [List.cons_append, List.cons_append]
    cases hs : jobStep vm hd acc with
    | none => simp [getJobsAux, hs]
    | some acc2 => simp [getJobsAux, hs, ih acc2]

/-- C6: a submitter record whose name before the first `@` the VoMapper
cannot resolve is dropped without failing the call: `getJobsInfo` on a
collection containing it equals `getJobsInfo` on the collection with that
record removed, so it reaches no summary entry and every other record is
still aggregated. -/
theorem getJobsInfo_unresolved_skip (vm : String → Option String)
    (pre post : List (String × Rec)) (user : String) (info : Rec)
    (h : vm (pyFirst (pySplit '@' user)) = none) :
    getJobsInfo vm (pre ++ (user, info) :: post) = getJobsInfo vm (pre ++ post) := by
  unfold getJobsInfo
  exact getJobsAux_skip vm user info post h pre []

/-- C6 witness: `alice@y` is unresolvable under a VoMapper that only knows
`bob`; her record vanishes and `bob@x` is aggregated as before. -/
theorem getJobsInfo_unresolved_skip_witness :
    (vmBob (pyFirst (pySplit '@' "alice@y")) = none) ∧
    getJobsInfo vmBob ([] ++ ("alice@y", [("HeldJobs", "1")]) ::
        [("bob@x", [("RunningJobs", "2")])]) =
      getJobsInfo vmBob ([] ++ [("bob@x", [("RunningJobs", "2")])]) :=
  ⟨by decide, getJobsInfo_unresolved_skip vmBob [] [("bob@x", [("RunningJobs", "2")])]
    "alice@y" [("HeldJobs", "1")] (by decide)⟩

/-- C1 (the code, as written): a submitter record carrying
`RunningJobs = "5"` together with the malformed `IdleJobs = "bad"` makes
`getJobsInfo` fail outright (the `UnboundLocalError` of `addIntInfo`,
modelled as `none`) instead of skipping just the idle field. -/
theorem getJobsInfo_badInt_raises :
    getJobsInfo vmAlice
      [("alice@example.org", [("RunningJobs", "5"), ("IdleJobs", "bad")])] = none := by
  decide

end Condor
